import Mathlib

/-!
Verification of the round-orchestration layer of the FATE hetero federated-learning
protocols: hetero secure boosting (guest/host), hetero FTL (decentralized encrypted
guest), and hetero k-means (guest/host/arbiter).

The definitions below are shallow embeddings of the Python source files:
  federatedml/ensemble/boosting/boosting_core/hetero_boosting.py
  federatedml/ftl/hetero_ftl/hetero_ftl_guest.py
  federatedml/unsupervise/kmeans/hetero_kmeans/hetero_kmeans_client.py
  federatedml/unsupervise/kmeans/hetero_kmeans/hetero_kmeans_arbiter.py
External collaborators (boosters, tables, encryption, transfer variables) are kept
abstract as function parameters, exactly at the call boundaries the source uses.
-/

namespace FATE

/- ===================== Hetero boosting (hetero_boosting.py) ===================== -/

/-- Source constant `consts.PAILLIER`. -/
def PAILLIER : String := "Paillier"

/-- Source constant `consts.ITERATIVEAFFINE`. -/
def ITERATIVEAFFINE : String := "IterativeAffine"

/-- The two encrypters `generate_encrypter` can construct. -/
inductive Encrypter where
  | paillier
  | iterativeAffine
  deriving DecidableEq

/-- Python `str.lower()` as applied to encryption method names (character-wise
ASCII lower-casing). -/
def py_lower (s : String) : String := ⟨s.data.map Char.toLower⟩

/-- Source: `HeteroBoosting.generate_encrypter` (hetero_boosting.py lines 50-61).
Selects the encrypter by the configured method name, lower-cased on both sides;
any other name raises `NotImplementedError`. -/
def generate_encrypter (method : String) : Except String Encrypter :=
  if py_lower method == py_lower PAILLIER then Except.ok Encrypter.paillier
  else if py_lower method == py_lower ITERATIVEAFFINE then Except.ok Encrypter.iterativeAffine
  else Except.error "encrypt method not supported yes!!!"

/-- Modelled from the spec: `ClassifyLabelChecker.validate_label` (external label
validator, interface only per spec section 1) returns the number of distinct class
labels and the list of distinct class labels appearing in the data.  Labels are
embedded as `Int` (Python `int` labels). -/
def validate_label (y : List (Nat × Int)) : Nat × List Int :=
  let cs := (y.map Prod.snd).dedup
  (cs.length, cs)

/-- Source: the `range_from_zero` scan inside `check_label` (lines 74-84): every
class label must be an `int` with `0 <= label < len(classes_)`.  Labels are embedded
as `Int`, so the `isinstance(_class, int)` test always passes. -/
def range_from_zero (classes_ : List Int) : Bool :=
  classes_.all (fun c => decide (0 ≤ c) && decide (c < (classes_.length : Int)))

/-- Python `class_mapping = dict(zip(ks, range(n)))` followed by `class_mapping[c]`:
`zip` truncates to the shorter list, a duplicated key keeps its last binding, and a
missing key raises `KeyError` (modelled as `none`). -/
def class_mapping_lookup (ks : List Int) (n : Nat) (c : Int) : Option Nat :=
  List.lookup c ((ks.zip (List.range n)).reverse)

/-- Python `self.y.mapValues(lambda c: class_mapping[c])` from line 88: remaps every
label through the dict; `none` models the `KeyError` raised on a missing key. -/
def mapValues_through_mapping (ks : List Int) (n : Nat) (y : List (Nat × Int)) :
    Option (List (Nat × Int)) :=
  y.mapM (fun kv => (class_mapping_lookup ks n kv.2).map (fun m => (kv.1, (m : Int))))

/-- The instance attributes of a `HeteroBoosting` object that `check_label` reads on
line 87: `self.classes_` and `self.num_classes`.  `fit` assigns them only from
`check_label` itself (line 127), after `check_label` has returned; on a fresh
instance they hold the constructor defaults `[]` and `0` (set by the external
`Boosting` base class, modelled from the spec which treats the base as setup only). -/
structure BoostingLabelState where
  classes_ : List Int
  num_classes : Nat
  deriving DecidableEq

/-- Source: `HeteroBoosting.check_label` (lines 63-93), classification branch.
Returns `(classes_, num_classes, booster_dim, y)` where `y` is the possibly remapped
label table, or the raised error.  Note line 87 builds the remapping dict from the
instance attributes `self.classes_` / `self.num_classes`, not from the freshly
computed locals `classes_` / `num_classes`. -/
def check_label (st : BoostingLabelState) (y : List (Nat × Int)) :
    Except String (List Int × Nat × Nat × List (Nat × Int)) :=
  let v := validate_label y
  let num_classes := v.1
  let classes0 := v.2
  let booster_dim := if num_classes > 2 then num_classes else 1
  let rfz := range_from_zero classes0
  let classes_ := classes0.insertionSort (fun a b => a ≤ b)
  if rfz then Except.ok (classes_, num_classes, booster_dim, y)
  else
    match mapValues_through_mapping st.classes_ st.num_classes y with
    | some y2 => Except.ok (classes_, num_classes, booster_dim, y2)
    | none => Except.error "KeyError"

/-- Loop-carried state of `HeteroBoostingGuest.fit` (lines 119-187), plus two pieces
of bookkeeping that exist only in the model: `rounds_completed` counts executed
epochs and `stop_flags` records each `sync_stop_flag(should_stop, epoch_idx)`
broadcast (lines 111-117, 177). -/
structure GuestFitState (P L A : Type) where
  boosting_model_list : List P
  history_loss : List L
  y_hat : A
  stop_flags : List (Bool × Nat)
  rounds_completed : Nat
  stopped_early : Bool
  deriving DecidableEq

/-- Source: the inner `for class_idx in range(self.booster_dim)` loop of the guest
fit (lines 151-165): fit a booster, append its parameter blob to
`boosting_model_list`, and update `y_hat` at dimension `class_idx` with the
booster's sample weights.  `fit_a_booster` abstracts the booster (only its
`get_model()` parameter part and `get_sample_weights()` observations are used). -/
def guest_epoch_boosters {P A W : Type} (booster_dim : Nat)
    (fit_a_booster : Nat → Nat → P) (get_sample_weights : Nat → Nat → W)
    (get_new_predict_score : A → W → Nat → A) (epoch_idx : Nat)
    (st : List P × A) : List P × A :=
  (List.range booster_dim).foldl
    (fun acc class_idx =>
      (acc.1 ++ [fit_a_booster epoch_idx class_idx],
       get_new_predict_score acc.2 (get_sample_weights epoch_idx class_idx) class_idx))
    st

/-- Source: the epoch loop of `HeteroBoostingGuest.fit` (lines 147-179), fuelled by
the remaining number of `boosting_round` epochs.  Each epoch runs the booster loop,
appends one loss to `history_loss`, broadcasts the stop flag, and breaks when the
stop condition holds. -/
def guest_fit_loop {P L A W : Type} (booster_dim : Nat)
    (fit_a_booster : Nat → Nat → P) (get_sample_weights : Nat → Nat → W)
    (get_new_predict_score : A → W → Nat → A)
    (compute_loss : A → L) (check_stop_condition : Nat → L → Bool) :
    Nat → Nat → GuestFitState P L A → GuestFitState P L A
  | 0, _, st => st
  | fuel + 1, epoch_idx, st =>
    let inner := guest_epoch_boosters booster_dim fit_a_booster get_sample_weights
      get_new_predict_score epoch_idx (st.boosting_model_list, st.y_hat)
    let loss := compute_loss inner.2
    let should_stop := check_stop_condition epoch_idx loss
    let st' : GuestFitState P L A :=
      { boosting_model_list := inner.1
        history_loss := st.history_loss ++ [loss]
        y_hat := inner.2
        stop_flags := st.stop_flags ++ [(should_stop, epoch_idx)]
        rounds_completed := st.rounds_completed + 1
        stopped_early := should_stop }
    if should_stop then st'
    else guest_fit_loop booster_dim fit_a_booster get_sample_weights
      get_new_predict_score compute_loss check_stop_condition fuel (epoch_idx + 1) st'

/-- Source: `HeteroBoostingGuest.fit` (lines 119-187): the label check (which may
raise), `generate_encrypter` (which may raise), then the epoch loop starting from
fresh (empty) training state.  `booster_dim` is the one returned by `check_label`
(line 127).  A raise carries the `boosting_model_list` and `history_loss` contents
at the moment of the raise. -/
def HeteroBoostingGuest_fit {P L A W : Type} (st : BoostingLabelState)
    (y : List (Nat × Int)) (method : String) (boosting_round : Nat)
    (fit_a_booster : Nat → Nat → P) (get_sample_weights : Nat → Nat → W)
    (get_new_predict_score : A → W → Nat → A)
    (compute_loss : A → L) (check_stop_condition : Nat → L → Bool)
    (init_y_hat : A) :
    Except (String × List P × List L) (GuestFitState P L A) :=
  match check_label st y with
  | Except.error e => Except.error (e, [], [])
  | Except.ok cl =>
    let booster_dim := cl.2.2.1
    match generate_encrypter method with
    | Except.error e => Except.error (e, [], [])
    | Except.ok _ =>
      Except.ok (guest_fit_loop booster_dim fit_a_booster get_sample_weights
        get_new_predict_score compute_loss check_stop_condition boosting_round 0
        ⟨[], [], init_y_hat, [], 0, false⟩)

/-- Source: `HeteroBoostingGuest.predict` (lines 189-213) and
`HeteroBoostingHost.predict` (lines 285-300), shared nested replay loop: for `idx` in
`range(rounds)` with `rounds = len(boosting_model_list) // booster_dim` and
`booster_idx` in `range(booster_dim)`, reconstruct the booster stored at position
`idx * booster_dim + booster_idx`, predict with it, and (guest only) accumulate the
score into the accumulator at dimension `booster_idx`.  The model also returns the
replay log of `(idx, booster_idx, parameter blob)` triples in execution order. -/
def predict_replay_loop {M P B K V S W : Type} (booster_meta : M) (ml : List P)
    (booster_dim : Nat) (p0 : P) (load_booster : M → P → Nat → Nat → B)
    (booster_predict : B → List (K × V) → W)
    (get_new_predict_score : List (K × S) → W → Nat → List (K × S))
    (data_inst : List (K × V)) (init_acc : List (K × S)) :
    List (K × S) × List (Nat × Nat × P) :=
  let rounds := ml.length / booster_dim
  (List.range rounds).foldl
    (fun st idx =>
      (List.range booster_dim).foldl
        (fun st2 booster_idx =>
          let param := ml.getD (idx * booster_dim + booster_idx) p0
          let model := load_booster booster_meta param idx booster_idx
          let score := booster_predict model data_inst
          (get_new_predict_score st2.1 score booster_idx,
           st2.2 ++ [(idx, booster_idx, param)]))
        st)
    (init_acc, [])

/-- Source: `HeteroBoostingGuest.predict` (lines 189-213): align the data, map every
aligned sample to `init_score`, replay the stored boosters, and convert the final
accumulator through `score_to_predict_result`.  Also returns the replay log. -/
def HeteroBoostingGuest_predict {M P B K V S W R : Type} (booster_meta : M)
    (ml : List P) (booster_dim : Nat) (p0 : P)
    (data_alignment : List (K × V) → List (K × V))
    (load_booster : M → P → Nat → Nat → B)
    (booster_predict : B → List (K × V) → W)
    (get_new_predict_score : List (K × S) → W → Nat → List (K × S))
    (init_score : S) (score_to_predict_result : List (K × V) → List (K × S) → R)
    (data_inst : List (K × V)) : R × List (Nat × Nat × P) :=
  let data := data_alignment data_inst
  let init_acc := data.map (fun kv => (kv.1, init_score))
  let core := predict_replay_loop booster_meta ml booster_dim p0 load_booster
    booster_predict get_new_predict_score data init_acc
  (score_to_predict_result data core.1, core.2)

/-- Source: `HeteroBoostingHost.predict` (lines 285-300): same alignment,
initialization and replay loop as the guest, but each booster's prediction is a
side-effecting contribution only (no accumulation, no result conversion).  The model
keeps the accumulation call absent by discarding scores: only the replay log and the
untouched accumulator are returned. -/
def HeteroBoostingHost_predict {M P B K V S W : Type} (booster_meta : M)
    (ml : List P) (booster_dim : Nat) (p0 : P)
    (data_alignment : List (K × V) → List (K × V))
    (load_booster : M → P → Nat → Nat → B)
    (booster_predict : B → List (K × V) → W)
    (init_score : S) (data_inst : List (K × V)) :
    List (K × S) × List (Nat × Nat × P) :=
  let data := data_alignment data_inst
  let init_acc := data.map (fun kv => (kv.1, init_score))
  predict_replay_loop booster_meta ml booster_dim p0 load_booster booster_predict
    (fun acc _ _ => acc) data init_acc

/- ============ Hetero k-means (hetero_kmeans_client.py / hetero_kmeans_arbiter.py) ============ -/

/-- Federated roles named by `consts`. -/
inductive Role where
  | GUEST
  | HOST
  | ARBITER
  deriving DecidableEq

/-- The `suffix=` argument a transfer-variable `remote`/`get` call actually passes:
omitted entirely, a bare scalar (`suffix=self.n_iter_`, arbiter side), or a
one-element tuple (`suffix=(self.n_iter_,)`, client side). -/
inductive Suffix where
  | noSuffix
  | scalar (n : Nat)
  | tup (n : Nat)
  deriving DecidableEq

/-- A k-means channel event: a `remote` (send) to a role or a blocking `get`
(receive), with the transfer-variable name and the suffix passed. -/
inductive KEv where
  | send (name : String) (dest : Role) (suffix : Suffix)
  | recv (name : String) (suffix : Suffix)
  deriving DecidableEq

/-- Source: the channel calls of one arbiter round (hetero_kmeans_arbiter.py lines
38-49), in program order.  Note lines 48-49 pass no `suffix` at all to
`arbiter_tol.remote`, unlike every other call of the round. -/
def arbiter_round_events (r : Nat) : List KEv :=
  [KEv.recv "guest_dist" (Suffix.scalar r),
   KEv.recv "host_dist" (Suffix.scalar r),
   KEv.send "cluster_result" Role.GUEST (Suffix.scalar r),
   KEv.send "cluster_result" Role.HOST (Suffix.scalar r),
   KEv.recv "guest_tol" (Suffix.scalar r),
   KEv.recv "host_tol" (Suffix.scalar r),
   KEv.send "arbiter_tol" Role.HOST Suffix.noSuffix,
   KEv.send "arbiter_tol" Role.GUEST Suffix.noSuffix]

/-- Python comparison `n > self.tol` where `n` starts as `inf` (`none`); `self.tol`
is a finite configuration value, so `inf > tol` is true. -/
def n_gt_tol (n : Option ℤ) (tol : ℤ) : Bool :=
  match n with
  | none => true
  | some q => decide (q > tol)

/-- Observable trace of `HeteroKmenasArbiter.fit`: the channel events, one
`(round, n, n < tol)` record per executed round, and the final `self.n_iter_`. -/
structure ArbiterTrace where
  events : List KEv
  rounds : List (Nat × ℤ × Bool)
  n_iter_ : Nat
  deriving DecidableEq

/-- Source: the `while self.n_iter_ < self.max_iter and n > self.tol` loop of
`HeteroKmenasArbiter.fit` (lines 36-52), fuelled.  Each round receives both distance
tables, broadcasts the assignment, sums the two received tolerances into `n`,
broadcasts `n` (unsuffixed), breaks when `n < tol`, and otherwise increments
`self.n_iter_`.  The values received are abstracted by `guest_tol` / `host_tol`. -/
def arbiter_fit_loop (max_iter : Nat) (tol : ℤ) (guest_tol host_tol : Nat → ℤ) :
    Nat → Nat → Option ℤ → ArbiterTrace → ArbiterTrace
  | 0, n_iter_, _, tr => { tr with n_iter_ := n_iter_ }
  | fuel + 1, n_iter_, n, tr =>
    if n_iter_ < max_iter && n_gt_tol n tol then
      let r := n_iter_
      let nq := guest_tol r + host_tol r
      let tr' : ArbiterTrace :=
        { events := tr.events ++ arbiter_round_events r
          rounds := tr.rounds ++ [(r, nq, decide (nq < tol))]
          n_iter_ := r }
      if nq < tol then tr'
      else arbiter_fit_loop max_iter tol guest_tol host_tol fuel (r + 1) (some nq) tr'
    else { tr with n_iter_ := n_iter_ }

/-- Source: `HeteroKmenasArbiter.fit` (lines 34-52) from `n_iter_ = 0`, `n = inf`.
`max_iter` fuel suffices because `n_iter_` grows by one per continued round. -/
def HeteroKmenasArbiter_fit (max_iter : Nat) (tol : ℤ) (guest_tol host_tol : Nat → ℤ) :
    ArbiterTrace :=
  arbiter_fit_loop max_iter tol guest_tol host_tol max_iter 0 none ⟨[], [], 0⟩

/-- Source: the channel calls of one client round (hetero_kmeans_client.py lines
80-87), in program order; `dist_name` / `tol_name` are `guest_dist` / `guest_tol`
for the guest subclass and `host_dist` / `host_tol` for the host subclass.  Every
call passes `suffix=(self.n_iter_,)`. -/
def client_round_events (dist_name tol_name : String) (r : Nat) : List KEv :=
  [KEv.send dist_name Role.ARBITER (Suffix.tup r),
   KEv.recv "cluster_result" (Suffix.tup r),
   KEv.send tol_name Role.ARBITER (Suffix.tup r),
   KEv.recv "arbiter_tol" (Suffix.tup r)]

/-- Source: the `while self.n_iter_ < self.max_iter` loop of
`HeteroKmeansClient.fit` (lines 77-90), fuelled.  The local centroid computation of
lines 82-85 is abstracted here — in the source it in fact raises on every round
before lines 86-87 run (see `client_round_body` and `centroid_cal` below) — so this
loop skeleton records only the channel requests the call sites of lines 80-87 make
(their names and suffix forms), which is all the tag-matching claim needs; the
value received for `arbiter_tol` at round `r` is `recv_tol r`.  After every round
`self.n_iter_` is incremented and the loop breaks iff `tol_tag == 1`. -/
def client_fit_loop (max_iter : Nat) (recv_tol : Nat → ℤ)
    (dist_name tol_name : String) :
    Nat → Nat → List KEv → Nat × List KEv
  | 0, n_iter_, evs => (n_iter_, evs)
  | fuel + 1, n_iter_, evs =>
    if n_iter_ < max_iter then
      let evs' := evs ++ client_round_events dist_name tol_name n_iter_
      let tol_tag := recv_tol n_iter_
      if tol_tag = 1 then (n_iter_ + 1, evs')
      else client_fit_loop max_iter recv_tol dist_name tol_name fuel (n_iter_ + 1) evs'
    else (n_iter_, evs)

/-- Source: `HeteroKmeansClient.fit` (lines 71-90) from `n_iter_ = 0`; returns the
final `self.n_iter_` (the number of executed rounds) and the channel events. -/
def HeteroKmeansClient_fit (max_iter : Nat) (recv_tol : Nat → ℤ)
    (dist_name tol_name : String) : Nat × List KEv :=
  client_fit_loop max_iter recv_tol dist_name tol_name max_iter 0 []

/-- Python `centroid_list = centroid_list.append(centroid_k)` (line 68) rebinds the
loop variable to the return value of `list.append`: on a list, `append` returns
`None`; on `None`, the attribute access raises `AttributeError`. -/
def py_append_rebind {V : Type} : Option (List V) → V → Except String (Option (List V))
  | none, _ => Except.error "AttributeError: NoneType has no attribute append"
  | some _, _ => Except.ok none

/-- Source: `HeteroKmeansClient.centroid_cal` (lines 62-69).  The per-cluster mean
(`a.join(...).reduce(...) / a.count`, delegated to the external table abstraction)
is abstracted by `centroid_k`; the loop over `range(0, self.k)` threads
`centroid_list` through the `list.append` rebinding of line 68.  `Except.ok (some l)`
models returning the list `l`, `Except.ok none` models returning Python `None`, and
`Except.error` models a raised exception. -/
def centroid_cal {V : Type} (k : Nat) (centroid_k : Nat → V) :
    Except String (Option (List V)) :=
  (List.range k).foldlM (fun cl kk => py_append_rebind cl (centroid_k kk)) (some [])

/-- Source: one round body of `HeteroKmeansClient.fit` (lines 78-90) with the local
computation embedded rather than abstracted: after the distance send (line 80) and
the assignment receive (line 81), line 82 runs `centroid_cal` (which returns Python
`None` for `k = 1` and raises `AttributeError` for `k >= 2`, see `centroid_cal`),
and line 83 evaluates `np.sum(...)` whose name `np` is never bound by the file's
imports (`from numpy import *` and the other imports bind no `np`), raising
`NameError` — so every round raises before the tolerance send (line 86) and the
`arbiter_tol` receive (line 87) are reached.  An error carries the channel events
emitted before the raise. -/
def client_round_body {V : Type} (k : Nat) (centroid_k : Nat → V)
    (dist_name : String) (r : Nat) : Except (String × List KEv) (List KEv) :=
  let evs := [KEv.send dist_name Role.ARBITER (Suffix.tup r),
              KEv.recv "cluster_result" (Suffix.tup r)]
  match centroid_cal k centroid_k with
  | Except.error e => Except.error (e, evs)
  | Except.ok _ => Except.error ("NameError: name np is not defined", evs)

/- ============ Hetero decentralized encrypted FTL guest (hetero_ftl_guest.py) ============ -/

/-- Which of the two guest-side mask allocations of a local iteration a mask is:
`grads` for `gradients_masks` from `add_random_mask_for_list_of_values` (line 361),
`loss` for `loss_mask` from `add_random_mask` (line 363). -/
inductive MaskKind where
  | grads
  | loss
  deriving DecidableEq

/-- Identity of a one-time mask: the outer round (`n_iter_`), the local iteration
inside that round, and which allocation it is.  Masks are freshly generated, so this
triple identifies each one uniquely. -/
structure MaskId where
  round : Nat
  local_iter : Nat
  kind : MaskKind
  deriving DecidableEq

/-- A guest-side event of `HeteroDecentralizedEncryptFTLGuest.fit`: mask generation,
mask removal, or a channel send/receive to/from the host tagged with `n_iter_`. -/
inductive FtlEv where
  | genMask (m : MaskId)
  | removeMask (m : MaskId)
  | sendHost (name : String) (tag : Nat)
  | recvHost (name : String) (tag : Nat)
  deriving DecidableEq

/-- Source: one local iteration of the inner
`for local_iter in range(self.local_iterations)` loop of
`HeteroDecentralizedEncryptFTLGuest.fit` (lines 346-437), in program order:
generate `gradients_masks` (line 361) and `loss_mask` (line 363), send the masked
encrypted gradients (line 366), send the masked encrypted loss only when
`local_iter == 0` (lines 374-380), receive/decrypt/return the host gradients (lines
384-397), receive the masked decrypted guest gradients and remove `gradients_masks`
(lines 402-410), and only when `local_iter == 0` receive the masked decrypted loss
and remove `loss_mask` (lines 421-428). -/
def guest_local_iter_events (r local_iter : Nat) : List FtlEv :=
  [FtlEv.genMask ⟨r, local_iter, MaskKind.grads⟩,
   FtlEv.genMask ⟨r, local_iter, MaskKind.loss⟩,
   FtlEv.sendHost "masked_enc_guest_gradients" r]
  ++ (if local_iter = 0 then [FtlEv.sendHost "masked_enc_loss" r] else [])
  ++ [FtlEv.recvHost "masked_enc_host_gradients" r,
      FtlEv.sendHost "masked_dec_host_gradients" r,
      FtlEv.recvHost "masked_dec_guest_gradients" r,
      FtlEv.removeMask ⟨r, local_iter, MaskKind.grads⟩]
  ++ (if local_iter = 0 then [FtlEv.recvHost "masked_dec_loss" r,
      FtlEv.removeMask ⟨r, local_iter, MaskKind.loss⟩] else [])

/-- Source: the events of one outer round of
`HeteroDecentralizedEncryptFTLGuest.fit` (lines 303-459): exchange components
(lines 317-332), run the local-iteration sub-loop, then send the stop flag
(lines 445-450).  (The convergence evaluation itself is modelled separately by
`guest_round_loss`.) -/
def guest_round_events (local_iterations r : Nat) : List FtlEv :=
  [FtlEv.sendHost "guest_component_list" r,
   FtlEv.recvHost "host_component_list" r]
  ++ (List.range local_iterations).flatMap (fun i => guest_local_iter_events r i)
  ++ [FtlEv.sendHost "is_decentralized_enc_ftl_stopped" r]

/-- Source: the threading of the `loss` local variable through one outer round
(lines 344, 421-428, 441): it starts as `None`, is assigned
`remove_random_mask(masked_dec_loss, loss_mask)` only on the local iteration with
`local_iter == 0`, and is otherwise left untouched; the end-of-round
`converge_func.is_converge(loss)` receives the final value.  `masked_dec_loss r i`
is the value received from the host and `loss_mask r i` the mask generated at
`(r, i)`; `remove_random_mask` is the external unmasking primitive. -/
def guest_round_loss {L : Type} (masked_dec_loss : Nat → Nat → L)
    (loss_mask : Nat → Nat → L) (remove_random_mask : L → L → L)
    (local_iterations r : Nat) : Option L :=
  (List.range local_iterations).foldl
    (fun loss i =>
      if i = 0 then some (remove_random_mask (masked_dec_loss r i) (loss_mask r i))
      else loss)
    none

/- ===================== Counting helper ===================== -/

/-- Number of occurrences of `a` in `l` (used to state exactly-once properties of
event traces). -/
def countOcc {α : Type} [DecidableEq α] (a : α) : List α → Nat
  | [] => 0
  | b :: l => (if b = a then 1 else 0) + countOcc a l

theorem countOcc_append {α : Type} [DecidableEq α] (a : α) (l₁ l₂ : List α) :
    countOcc a (l₁ ++ l₂) = countOcc a l₁ + countOcc a l₂ := by
  induction l₁ with
  | nil => simp [countOcc]
  | cons b l ih => simp [countOcc, ih]; omega

theorem countOcc_bind {α β : Type} [DecidableEq β] (a : β) (l : List α)
    (f : α → List β) :
    countOcc a (l.flatMap f) = (l.map (fun x => countOcc a (f x))).sum := by
  induction l with
  | nil => simp [countOcc]
  | cons b l ih => simp [List.flatMap_cons, countOcc_append, ih]

/- ===================== Helper lemmas ===================== -/

theorem foldl_fst_length {P A : Type} (g : (List P × A) → Nat → List P × A)
    (h : ∀ st i, (g st i).1.length = st.1.length + 1) :
    ∀ (l : List Nat) (st : List P × A), (l.foldl g st).1.length = st.1.length + l.length := by
  intro l
  induction l with
  | nil => simp
  | cons i l ih =>
    intro st
    rw [List.foldl_cons, ih, h]
    simp
    omega

theorem guest_epoch_boosters_fst_length {P A W : Type} (d : Nat)
    (fb : Nat → Nat → P) (gw : Nat → Nat → W) (up : A → W → Nat → A) (e : Nat)
    (st : List P × A) :
    (guest_epoch_boosters d fb gw up e st).1.length = st.1.length + d := by
  unfold guest_epoch_boosters
  rw [foldl_fst_length]
  · simp
  · intro st i
    simp

theorem guest_fit_loop_invariant {P L A W : Type} (d : Nat)
    (fb : Nat → Nat → P) (gw : Nat → Nat → W) (up : A → W → Nat → A)
    (cl : A → L) (cs : Nat → L → Bool) :
    ∀ (fuel e : Nat) (st : GuestFitState P L A),
      st.boosting_model_list.length = st.rounds_completed * d →
      st.history_loss.length = st.rounds_completed →
      (guest_fit_loop d fb gw up cl cs fuel e st).boosting_model_list.length =
        (guest_fit_loop d fb gw up cl cs fuel e st).rounds_completed * d ∧
      (guest_fit_loop d fb gw up cl cs fuel e st).history_loss.length =
        (guest_fit_loop d fb gw up cl cs fuel e st).rounds_completed := by
  intro fuel
  induction fuel with
  | zero => intro e st h1 h2; exact ⟨h1, h2⟩
  | succ n ih =>
    intro e st h1 h2
    simp only [guest_fit_loop]
    split
    · constructor
      · simp [guest_epoch_boosters_fst_length, h1, Nat.succ_mul]
      · simp [h2]
    · apply ih
      · simp [guest_epoch_boosters_fst_length, h1, Nat.succ_mul]
      · simp [h2]

/-- C1: for every guest-side boosting fit, each executed epoch appends exactly
`booster_dim` parameter blobs (one per class) and exactly one loss, so on exit
`len(boosting_model_list) = rounds * booster_dim` and `len(history_loss) = rounds`;
in particular a 2-round run with `booster_dim = 1` and a never-true stop condition
ends with both lists of length 2 and the stop flag broadcast `false` after each of
rounds 0 and 1. -/
theorem C1_guest_fit_list_lengths :
    (∀ (P L A W : Type) (d : Nat) (fb : Nat → Nat → P) (gw : Nat → Nat → W)
      (up : A → W → Nat → A) (cl : A → L) (cs : Nat → L → Bool)
      (boosting_round : Nat) (a0 : A),
      (guest_fit_loop d fb gw up cl cs boosting_round 0
          ⟨[], [], a0, [], 0, false⟩).boosting_model_list.length =
        (guest_fit_loop d fb gw up cl cs boosting_round 0
          ⟨[], [], a0, [], 0, false⟩).rounds_completed * d ∧
      (guest_fit_loop d fb gw up cl cs boosting_round 0
          ⟨[], [], a0, [], 0, false⟩).history_loss.length =
        (guest_fit_loop d fb gw up cl cs boosting_round 0
          ⟨[], [], a0, [], 0, false⟩).rounds_completed) ∧
    ((@guest_fit_loop Unit Unit Unit Unit 1 (fun _ _ => ()) (fun _ _ => ())
        (fun a _ _ => a) (fun _ => ()) (fun _ _ => false) 2 0
        ⟨[], [], (), [], 0, false⟩).boosting_model_list.length = 2 ∧
      (@guest_fit_loop Unit Unit Unit Unit 1 (fun _ _ => ()) (fun _ _ => ())
        (fun a _ _ => a) (fun _ => ()) (fun _ _ => false) 2 0
        ⟨[], [], (), [], 0, false⟩).history_loss.length = 2 ∧
      (@guest_fit_loop Unit Unit Unit Unit 1 (fun _ _ => ()) (fun _ _ => ())
        (fun a _ _ => a) (fun _ => ()) (fun _ _ => false) 2 0
        ⟨[], [], (), [], 0, false⟩).rounds_completed = 2 ∧
      (@guest_fit_loop Unit Unit Unit Unit 1 (fun _ _ => ()) (fun _ _ => ())
        (fun a _ _ => a) (fun _ => ()) (fun _ _ => false) 2 0
        ⟨[], [], (), [], 0, false⟩).stop_flags = [(false, 0), (false, 1)]) := by
  constructor
  · intro P L A W d fb gw up cl cs boosting_round a0
    exact guest_fit_loop_invariant d fb gw up cl cs boosting_round 0
      ⟨[], [], a0, [], 0, false⟩ (by simp) (by simp)
  · decide

theorem foldl_flatMap {α β σ : Type} (l : List α) (f : α → List β)
    (g : σ → β → σ) (s : σ) :
    (l.flatMap f).foldl g s = l.foldl (fun acc x => (f x).foldl g acc) s := by
  induction l generalizing s with
  | nil => rfl
  | cons a l ih => rw [List.flatMap_cons, List.foldl_append, List.foldl_cons, ih]

/-- The (round, dim) enumeration replayed by `predict_replay_loop`. -/
def replay_pairs (rounds booster_dim : Nat) : List (Nat × Nat) :=
  (List.range rounds).flatMap (fun i => (List.range booster_dim).map (fun j => (i, j)))

theorem predict_replay_loop_closed {M P B K V S W : Type} (meta : M) (ml : List P)
    (d : Nat) (p0 : P) (load : M → P → Nat → Nat → B)
    (bpred : B → List (K × V) → W)
    (upd : List (K × S) → W → Nat → List (K × S)) (data : List (K × V))
    (init : List (K × S)) :
    predict_replay_loop meta ml d p0 load bpred upd data init =
      ((replay_pairs (ml.length / d) d).foldl
        (fun acc ij =>
          upd acc (bpred (load meta (ml.getD (ij.1 * d + ij.2) p0) ij.1 ij.2) data) ij.2)
        init,
       (replay_pairs (ml.length / d) d).map
        (fun ij => (ij.1, ij.2, ml.getD (ij.1 * d + ij.2) p0))) := by
  simp only [predict_replay_loop]
  have h2 : (fun (st : List (K × S) × List (Nat × Nat × P)) (idx : Nat) =>
      List.foldl (fun st2 booster_idx =>
        (upd st2.1
          (bpred (load meta (ml.getD (idx * d + booster_idx) p0) idx booster_idx) data)
          booster_idx,
         st2.2 ++ [(idx, booster_idx, ml.getD (idx * d + booster_idx) p0)]))
        st (List.range d)) =
      (fun st idx => List.foldl (fun st2 (b : Nat × Nat) =>
        (upd st2.1 (bpred (load meta (ml.getD (b.1 * d + b.2) p0) b.1 b.2) data) b.2,
         st2.2 ++ [(b.1, b.2, ml.getD (b.1 * d + b.2) p0)]))
        st ((List.range d).map (fun j => (idx, j)))) := by
    funext st idx
    rw [List.foldl_map]
  rw [h2, ← foldl_flatMap]
  have h3 : ∀ (l : List (Nat × Nat)) (s : List (K × S)) (lg : List (Nat × Nat × P)),
      l.foldl (fun st2 b =>
        (upd st2.1 (bpred (load meta (ml.getD (b.1 * d + b.2) p0) b.1 b.2) data) b.2,
         st2.2 ++ [(b.1, b.2, ml.getD (b.1 * d + b.2) p0)])) (s, lg) =
      (l.foldl (fun acc ij =>
        upd acc (bpred (load meta (ml.getD (ij.1 * d + ij.2) p0) ij.1 ij.2) data) ij.2) s,
       lg ++ l.map (fun ij => (ij.1, ij.2, ml.getD (ij.1 * d + ij.2) p0))) := by
    intro l
    induction l with
    | nil => simp
    | cons b l ih =>
      intro s lg
      rw [List.foldl_cons, List.foldl_cons, ih]
      simp
  rw [h3]
  simp [replay_pairs]

/-- C2: `HeteroBoostingGuest.predict` maps every aligned sample to `init_score`,
computes `rounds = len(boosting_model_list) // booster_dim`, replays the booster at
position `idx * booster_dim + booster_idx` via
`load_booster(meta, param, idx, booster_idx)` for `idx < rounds`, `booster_idx <
booster_dim` in training nesting order, accumulating each score at dimension
`booster_idx`, and converts the accumulator through `score_to_predict_result`. -/
theorem C2_guest_predict_replay :
    ∀ (M P B K V S W R : Type) (meta : M) (ml : List P) (d : Nat) (p0 : P)
      (align : List (K × V) → List (K × V)) (load : M → P → Nat → Nat → B)
      (bpred : B → List (K × V) → W)
      (upd : List (K × S) → W → Nat → List (K × S)) (init_score : S)
      (convert : List (K × V) → List (K × S) → R) (data_inst : List (K × V)),
      HeteroBoostingGuest_predict meta ml d p0 align load bpred upd init_score
          convert data_inst =
        (convert (align data_inst)
          ((replay_pairs (ml.length / d) d).foldl
            (fun acc ij =>
              upd acc
                (bpred (load meta (ml.getD (ij.1 * d + ij.2) p0) ij.1 ij.2)
                  (align data_inst)) ij.2)
            ((align data_inst).map (fun kv => (kv.1, init_score)))),
         (replay_pairs (ml.length / d) d).map
          (fun ij => (ij.1, ij.2, ml.getD (ij.1 * d + ij.2) p0))) := by
  intro M P B K V S W R meta ml d p0 align load bpred upd init_score convert data_inst
  simp only [HeteroBoostingGuest_predict]
  rw [predict_replay_loop_closed]

theorem replay_pairs_positions (r d : Nat) :
    (replay_pairs r d).map (fun ij => ij.1 * d + ij.2) = List.range (r * d) := by
  induction r with
  | zero => simp [replay_pairs]
  | succ n ih =>
    rw [replay_pairs, List.range_succ, List.flatMap_append, List.map_append,
      ← replay_pairs, ih, Nat.succ_mul, List.range_add]
    congr 1
    simp [List.map_map, Function.comp_def]

theorem replay_pairs_length (r d : Nat) : (replay_pairs r d).length = r * d := by
  have h := congrArg List.length (replay_pairs_positions r d)
  simpa using h

/-- C10: both guest and host predict replay exactly
`(len(boosting_model_list) // booster_dim) * booster_dim` stored boosters; any
stored position at or past that bound (the trailing `len mod booster_dim` boosters
when the length is not a whole multiple) is never loaded. -/
theorem C10_trailing_boosters_never_loaded :
    ∀ (M P B K V S W R : Type) (meta : M) (ml : List P) (d : Nat) (p0 : P)
      (align : List (K × V) → List (K × V)) (load : M → P → Nat → Nat → B)
      (bpred : B → List (K × V) → W)
      (upd : List (K × S) → W → Nat → List (K × S)) (init_score : S)
      (convert : List (K × V) → List (K × S) → R) (data_inst : List (K × V)),
      (HeteroBoostingGuest_predict meta ml d p0 align load bpred upd init_score
          convert data_inst).2.length = ml.length / d * d ∧
      (HeteroBoostingHost_predict meta ml d p0 align load bpred init_score
          data_inst).2.length = ml.length / d * d ∧
      ∀ pos, ml.length / d * d ≤ pos →
        pos ∉ (HeteroBoostingGuest_predict meta ml d p0 align load bpred upd
            init_score convert data_inst).2.map (fun e => e.1 * d + e.2.1) ∧
        pos ∉ (HeteroBoostingHost_predict meta ml d p0 align load bpred init_score
            data_inst).2.map (fun e => e.1 * d + e.2.1) := by
  intro M P B K V S W R meta ml d p0 align load bpred upd init_score convert data_inst
  have hg : (HeteroBoostingGuest_predict meta ml d p0 align load bpred upd init_score
      convert data_inst).2 =
      (replay_pairs (ml.length / d) d).map
        (fun ij => (ij.1, ij.2, ml.getD (ij.1 * d + ij.2) p0)) := by
    simp only [HeteroBoostingGuest_predict]
    rw [predict_replay_loop_closed]
  have hh : (HeteroBoostingHost_predict meta ml d p0 align load bpred init_score
      data_inst).2 =
      (replay_pairs (ml.length / d) d).map
        (fun ij => (ij.1, ij.2, ml.getD (ij.1 * d + ij.2) p0)) := by
    simp only [HeteroBoostingHost_predict]
    rw [predict_replay_loop_closed]
  have hpos : ((replay_pairs (ml.length / d) d).map
      (fun ij => (ij.1, ij.2, ml.getD (ij.1 * d + ij.2) p0))).map
        (fun e => e.1 * d + e.2.1) = List.range (ml.length / d * d) := by
    rw [List.map_map]
    rw [show ((fun (e : Nat × Nat × P) => e.1 * d + e.2.1) ∘
        (fun (ij : Nat × Nat) => (ij.1, ij.2, ml.getD (ij.1 * d + ij.2) p0))) =
        (fun (ij : Nat × Nat) => ij.1 * d + ij.2) from rfl]
    exact replay_pairs_positions (ml.length / d) d
  refine ⟨?_, ?_, ?_⟩
  · rw [hg, List.length_map, replay_pairs_length]
  · rw [hh, List.length_map, replay_pairs_length]
  · intro pos hge
    constructor
    · rw [hg, hpos, List.mem_range]
      omega
    · rw [hh, hpos, List.mem_range]
      omega

/-- Witness for C10 at a concrete instance: five stored boosters, `booster_dim = 2`;
position 4 (the trailing booster) is never loaded by guest or host predict. -/
theorem C10_trailing_boosters_never_loaded_witness :
    4 ∉ (@HeteroBoostingGuest_predict Unit Nat Unit Nat Unit Nat Unit Unit ()
        [10, 11, 12, 13, 14] 2 0 id (fun _ _ _ _ => ()) (fun _ _ => ())
        (fun a _ _ => a) 0 (fun _ _ => ()) []).2.map (fun e => e.1 * 2 + e.2.1) ∧
    4 ∉ (@HeteroBoostingHost_predict Unit Nat Unit Nat Unit Nat Unit ()
        [10, 11, 12, 13, 14] 2 0 id (fun _ _ _ _ => ()) (fun _ _ => ()) 0
        []).2.map (fun e => e.1 * 2 + e.2.1) := by
  have h := C10_trailing_boosters_never_loaded Unit Nat Unit Nat Unit Nat Unit Unit ()
    [10, 11, 12, 13, 14] 2 0 id (fun _ _ _ _ => ()) (fun _ _ => ())
    (fun a _ _ => a) 0 (fun _ _ => ()) []
  exact ⟨(h.2.2 4 (by decide)).1, (h.2.2 4 (by decide)).2⟩

/-- C7 (code bug): on a fit whose label set `{1, 2}` is not a zero-based contiguous
range, `check_label` does not remap the labels onto `range(num_classes)`: line 87
builds the remapping dict from the stale instance attributes `self.classes_` /
`self.num_classes` (constructor defaults `[]` / `0` on a first fit, since `fit`
only assigns them from `check_label`'s own return value) instead of the freshly
computed `classes_` / `num_classes`, so the `mapValues` lookup raises `KeyError`
instead of remapping.  The first conjunct shows the input is indeed detected as
non-zero-based; the second shows the mapping the code builds is empty at label 1;
the third evaluates `check_label` to the raise. -/
theorem C7_check_label_stale_remap_raises :
    range_from_zero (validate_label [(0, 1), (1, 2)]).2 = false ∧
    class_mapping_lookup ([] : List Int) 0 1 = none ∧
    check_label ⟨[], 0⟩ [(0, 1), (1, 2)] = Except.error "KeyError" :=
  ⟨by decide, by decide, by rfl⟩

/-- C9: for every encryption method name that is neither Paillier nor
iterative-affine (case-insensitive), the guest fit raises
`NotImplementedError("encrypt method not supported yes!!!")` from
`generate_encrypter`, before any training round executes: the error state carries
empty `boosting_model_list` and `history_loss`.  (The label check is assumed to
succeed, as it precedes `generate_encrypter` in `fit`.) -/
theorem C9_unknown_encrypter_raises_before_rounds :
    ∀ (P L A W : Type) (st : BoostingLabelState) (y : List (Nat × Int))
      (method : String) (cl : List Int × Nat × Nat × List (Nat × Int))
      (boosting_round : Nat) (fb : Nat → Nat → P) (gw : Nat → Nat → W)
      (up : A → W → Nat → A) (closs : A → L) (cs : Nat → L → Bool) (a0 : A),
      check_label st y = Except.ok cl →
      py_lower method ≠ "paillier" →
      py_lower method ≠ "iterativeaffine" →
      @HeteroBoostingGuest_fit P L A W st y method boosting_round fb gw up closs cs a0 =
        Except.error ("encrypt method not supported yes!!!", [], []) := by
  intro P L A W st y method cl boosting_round fb gw up closs cs a0 hcl h1 h2
  unfold HeteroBoostingGuest_fit
  rw [hcl]
  have hgen : generate_encrypter method =
      Except.error "encrypt method not supported yes!!!" := by
    unfold generate_encrypter
    rw [if_neg, if_neg]
    · simp only [ITERATIVEAFFINE, beq_iff_eq]
      intro h
      exact h2 (by rw [h]; rfl)
    · simp only [PAILLIER, beq_iff_eq]
      intro h
      exact h1 (by rw [h]; rfl)
  rw [hgen]

/-- Witness for C9: method name `RSA` on a well-formed binary label table. -/
theorem C9_unknown_encrypter_raises_before_rounds_witness :
    check_label ⟨[], 0⟩ [(0, 0), (1, 1)] =
      Except.ok ([0, 1], 2, 1, [(0, 0), (1, 1)]) ∧
    py_lower "RSA" ≠ "paillier" ∧ py_lower "RSA" ≠ "iterativeaffine" ∧
    @HeteroBoostingGuest_fit Unit Unit Unit Unit ⟨[], 0⟩ [(0, 0), (1, 1)] "RSA" 2
        (fun _ _ => ()) (fun _ _ => ()) (fun a _ _ => a) (fun _ => ())
        (fun _ _ => false) () =
      Except.error ("encrypt method not supported yes!!!", [], []) := by
  refine ⟨by rfl, by decide, by decide, ?_⟩
  exact C9_unknown_encrypter_raises_before_rounds Unit Unit Unit Unit ⟨[], 0⟩
    [(0, 0), (1, 1)] "RSA" ([0, 1], 2, 1, [(0, 0), (1, 1)]) 2
    (fun _ _ => ()) (fun _ _ => ()) (fun a _ _ => a) (fun _ => ())
    (fun _ _ => false) () (by rfl) (by decide) (by decide)

/-- C6 (code bug): `HeteroKmeansClient.centroid_cal` never produces the ordered
list of `k` per-cluster centroids: line 68 rebinds `centroid_list` to the `None`
returned by `list.append`, so with `k = 2` the second iteration raises
`AttributeError`, and with `k = 1` the function returns `None` rather than a
one-element list. -/
theorem C6_centroid_cal_crashes :
    centroid_cal 2 (fun _ => (0 : Int)) =
      Except.error "AttributeError: NoneType has no attribute append" ∧
    centroid_cal 1 (fun _ => (0 : Int)) = Except.ok none :=
  ⟨by rfl, by rfl⟩

/-- C5 (code bug): in the round-0 run, the arbiter sends `arbiter_tol` to guest and
host with no suffix at all (and with neither a scalar nor a tuple round-0 suffix),
while the client's matching `arbiter_tol` receive for round 0 requests suffix
`(0,)`; the two suffixes differ, so the send is not tagged with the round index the
receive requests. -/
theorem C5_arbiter_tol_untagged :
    countOcc (KEv.send "arbiter_tol" Role.GUEST Suffix.noSuffix)
      (HeteroKmenasArbiter_fit 1 5 (fun _ => 1) (fun _ => 2)).events = 1 ∧
    countOcc (KEv.send "arbiter_tol" Role.HOST Suffix.noSuffix)
      (HeteroKmenasArbiter_fit 1 5 (fun _ => 1) (fun _ => 2)).events = 1 ∧
    countOcc (KEv.send "arbiter_tol" Role.GUEST (Suffix.scalar 0))
      (HeteroKmenasArbiter_fit 1 5 (fun _ => 1) (fun _ => 2)).events = 0 ∧
    countOcc (KEv.send "arbiter_tol" Role.GUEST (Suffix.tup 0))
      (HeteroKmenasArbiter_fit 1 5 (fun _ => 1) (fun _ => 2)).events = 0 ∧
    countOcc (KEv.recv "arbiter_tol" (Suffix.tup 0))
      (HeteroKmeansClient_fit 1 (fun _ => 3) "guest_dist" "guest_tol").2 = 1 ∧
    (Suffix.noSuffix == Suffix.tup 0) = false := by
  decide

/-- C4 (code bug): the claimed client exit behavior is unreachable in the code.
Every client round raises at lines 82-83 — `centroid_cal` raises `AttributeError`
for `k >= 2` and returns `None` for smaller `k`, after which line 83's unbound `np`
raises `NameError` — before the tolerance send (line 86) and the `arbiter_tol`
receive (line 87): the error payload lists exactly the two channel events emitted
before the crash, with no tolerance send and no stop-signal receive among them.
Independently, the arbiter's only executed round in the run with `tol = 5` and
client tolerances 1 and 2 records `(0, 3, true)`: the value it broadcasts is the
numeric combined tolerance 3, not the boolean stop decision. -/
theorem C4_client_crashes_before_stop_signal :
    client_round_body 2 (fun _ => (0 : Int)) "guest_dist" 0 =
      Except.error ("AttributeError: NoneType has no attribute append",
        [KEv.send "guest_dist" Role.ARBITER (Suffix.tup 0),
         KEv.recv "cluster_result" (Suffix.tup 0)]) ∧
    client_round_body 1 (fun _ => (0 : Int)) "guest_dist" 0 =
      Except.error ("NameError: name np is not defined",
        [KEv.send "guest_dist" Role.ARBITER (Suffix.tup 0),
         KEv.recv "cluster_result" (Suffix.tup 0)]) ∧
    (HeteroKmenasArbiter_fit 1 5 (fun _ => 1) (fun _ => 2)).rounds = [(0, 3, true)] :=
  ⟨by rfl, by rfl, by rfl⟩

/- ===================== FTL mask and loss theorems ===================== -/

theorem local_iter_count_gen_grads (r i j : Nat) :
    countOcc (FtlEv.genMask ⟨r, i, MaskKind.grads⟩) (guest_local_iter_events r j) =
      if j = i then 1 else 0 := by
  unfold guest_local_iter_events
  by_cases h : j = i
  · subst h
    by_cases h0 : j = 0 <;> simp [h0, countOcc_append, countOcc, MaskId.mk.injEq]
  · by_cases h0 : j = 0 <;> simp [h, h0, countOcc_append, countOcc, MaskId.mk.injEq]

theorem local_iter_count_rem_grads (r i j : Nat) :
    countOcc (FtlEv.removeMask ⟨r, i, MaskKind.grads⟩) (guest_local_iter_events r j) =
      if j = i then 1 else 0 := by
  unfold guest_local_iter_events
  by_cases h : j = i
  · subst h
    by_cases h0 : j = 0 <;> simp [h0, countOcc_append, countOcc, MaskId.mk.injEq]
  · by_cases h0 : j = 0 <;> simp [h, h0, countOcc_append, countOcc, MaskId.mk.injEq]

theorem local_iter_count_gen_loss (r i j : Nat) :
    countOcc (FtlEv.genMask ⟨r, i, MaskKind.loss⟩) (guest_local_iter_events r j) =
      if j = i then 1 else 0 := by
  unfold guest_local_iter_events
  by_cases h : j = i
  · subst h
    by_cases h0 : j = 0 <;> simp [h0, countOcc_append, countOcc, MaskId.mk.injEq]
  · by_cases h0 : j = 0 <;> simp [h, h0, countOcc_append, countOcc, MaskId.mk.injEq]

theorem local_iter_count_rem_loss (r i j : Nat) :
    countOcc (FtlEv.removeMask ⟨r, i, MaskKind.loss⟩) (guest_local_iter_events r j) =
      if j = i ∧ j = 0 then 1 else 0 := by
  unfold guest_local_iter_events
  by_cases h : j = i
  · subst h
    by_cases h0 : j = 0 <;> simp [h0, countOcc_append, countOcc, MaskId.mk.injEq]
  · by_cases h0 : j = 0 <;> simp [h, h0, countOcc_append, countOcc, MaskId.mk.injEq]

theorem local_iter_count_send_loss (r j : Nat) :
    countOcc (FtlEv.sendHost "masked_enc_loss" r) (guest_local_iter_events r j) =
      if j = 0 then 1 else 0 := by
  unfold guest_local_iter_events
  by_cases h0 : j = 0 <;> simp [h0, countOcc_append, countOcc]

theorem local_iter_count_recv_loss (r j : Nat) :
    countOcc (FtlEv.recvHost "masked_dec_loss" r) (guest_local_iter_events r j) =
      if j = 0 then 1 else 0 := by
  unfold guest_local_iter_events
  by_cases h0 : j = 0 <;> simp [h0, countOcc_append, countOcc]

theorem sum_range_ite (c : Nat) :
    ∀ (li i : Nat), i < li →
      ((List.range li).map (fun j => if j = i then c else 0)).sum = c := by
  intro li
  induction li with
  | zero => intro i h; omega
  | succ n ih =>
    intro i h
    rw [List.range_succ, List.map_append, List.sum_append]
    rcases Nat.lt_or_ge i n with h2 | h2
    · rw [ih i h2]
      have hne : n ≠ i := by omega
      simp [hne]
    · have hin : i = n := by omega
      subst hin
      have hz : ((List.range i).map (fun j => if j = i then c else 0)).sum = 0 := by
        have : ∀ j ∈ List.range i, (if j = i then c else 0) = 0 := by
          intro j hj
          have := List.mem_range.mp hj
          have hne : j ≠ i := by omega
          simp [hne]
        rw [List.map_congr_left this]
        simp
      rw [hz]
      simp

/-- Count of an event in a full round: prefix and suffix messages plus the sum over
local iterations. -/
theorem countOcc_round (a : FtlEv) (li r : Nat) :
    countOcc a (guest_round_events li r) =
      countOcc a [FtlEv.sendHost "guest_component_list" r,
        FtlEv.recvHost "host_component_list" r] +
      ((List.range li).map (fun j => countOcc a (guest_local_iter_events r j))).sum +
      countOcc a [FtlEv.sendHost "is_decentralized_enc_ftl_stopped" r] := by
  unfold guest_round_events
  rw [countOcc_append, countOcc_append, countOcc_bind]

/-- C3 counterexample: in a round with `local_iterations = 2`, the loss mask of
local iteration 1 is generated (line 363 runs unconditionally) but never removed
(line 428 runs only when `local_iter == 0`): it is left unconsumed, violating the
claim that every generated mask is removed exactly once. -/
theorem C3_counterexample_loss_mask_unconsumed :
    countOcc (FtlEv.genMask ⟨0, 1, MaskKind.loss⟩) (guest_round_events 2 0) = 1 ∧
    countOcc (FtlEv.removeMask ⟨0, 1, MaskKind.loss⟩) (guest_round_events 2 0) = 0 := by
  decide

/-- C3 amended: in every outer round, each local iteration's `gradients_masks` is
generated exactly once and removed exactly once, and each local iteration's
`loss_mask` is generated exactly once but removed exactly once only in local
iteration 0 — in local iterations past the first, the loss mask is generated and
never removed (its masked value is also never sent; see the C8 theorem). -/
theorem C3_masks_removed_amended :
    ∀ (li r i : Nat), i < li →
      countOcc (FtlEv.genMask ⟨r, i, MaskKind.grads⟩) (guest_round_events li r) = 1 ∧
      countOcc (FtlEv.removeMask ⟨r, i, MaskKind.grads⟩) (guest_round_events li r) = 1 ∧
      countOcc (FtlEv.genMask ⟨r, i, MaskKind.loss⟩) (guest_round_events li r) = 1 ∧
      countOcc (FtlEv.removeMask ⟨r, i, MaskKind.loss⟩) (guest_round_events li r) =
        (if i = 0 then 1 else 0) := by
  intro li r i h
  refine ⟨?_, ?_, ?_, ?_⟩
  · rw [countOcc_round]
    simp only [local_iter_count_gen_grads]
    rw [sum_range_ite 1 li i h]
    simp [countOcc]
  · rw [countOcc_round]
    simp only [local_iter_count_rem_grads]
    rw [sum_range_ite 1 li i h]
    simp [countOcc]
  · rw [countOcc_round]
    simp only [local_iter_count_gen_loss]
    rw [sum_range_ite 1 li i h]
    simp [countOcc]
  · rw [countOcc_round]
    simp only [local_iter_count_rem_loss]
    by_cases hi : i = 0
    · subst hi
      have : (fun j => if j = 0 ∧ j = 0 then 1 else 0) =
          (fun j => if j = (0 : Nat) then 1 else 0) := by
        funext j
        by_cases hj : j = 0 <;> simp [hj]
      rw [this, sum_range_ite 1 li 0 h]
      simp [countOcc]
    · have : ∀ j ∈ List.range li, (if j = i ∧ j = 0 then 1 else 0) = 0 := by
        intro j hj
        have hne : ¬(j = i ∧ j = 0) := by
          intro hc
          exact hi (hc.1 ▸ hc.2)
        simp [hne]
      rw [List.map_congr_left this]
      simp [countOcc, hi]

/-- Witness for C3 amended, in a round with `local_iterations = 2`: the gradients
mask of local iteration 1 is generated and removed exactly once, the loss mask of
local iteration 0 is generated and removed exactly once. -/
theorem C3_masks_removed_amended_witness :
    countOcc (FtlEv.genMask ⟨0, 1, MaskKind.grads⟩) (guest_round_events 2 0) = 1 ∧
    countOcc (FtlEv.removeMask ⟨0, 1, MaskKind.grads⟩) (guest_round_events 2 0) = 1 ∧
    countOcc (FtlEv.genMask ⟨0, 0, MaskKind.loss⟩) (guest_round_events 2 0) = 1 ∧
    countOcc (FtlEv.removeMask ⟨0, 0, MaskKind.loss⟩) (guest_round_events 2 0) = 1 :=
  ⟨(C3_masks_removed_amended 2 0 1 (by decide)).1,
   (C3_masks_removed_amended 2 0 1 (by decide)).2.1,
   (C3_masks_removed_amended 2 0 0 (by decide)).2.2.1,
   (C3_masks_removed_amended 2 0 0 (by decide)).2.2.2⟩

/-- C8: in each outer round the masked encrypted loss is sent and the masked
decrypted loss received back exactly once round-wide, both only in the local
iteration with `local_iter == 0` (every later local iteration neither sends nor
receives a loss), and the end-of-round convergence check receives exactly the loss
unmasked in that first local iteration. -/
theorem C8_loss_only_first_local_iter :
    ∀ (L : Type) (masked_dec_loss loss_mask : Nat → Nat → L)
      (remove_random_mask : L → L → L) (li r : Nat), 0 < li →
      countOcc (FtlEv.sendHost "masked_enc_loss" r) (guest_round_events li r) = 1 ∧
      countOcc (FtlEv.recvHost "masked_dec_loss" r) (guest_round_events li r) = 1 ∧
      (∀ i, i < li → i ≠ 0 →
        countOcc (FtlEv.sendHost "masked_enc_loss" r)
          (guest_local_iter_events r i) = 0 ∧
        countOcc (FtlEv.recvHost "masked_dec_loss" r)
          (guest_local_iter_events r i) = 0) ∧
      guest_round_loss masked_dec_loss loss_mask remove_random_mask li r =
        some (remove_random_mask (masked_dec_loss r 0) (loss_mask r 0)) := by
  intro L masked_dec_loss loss_mask remove_random_mask li r hli
  refine ⟨?_, ?_, ?_, ?_⟩
  · rw [countOcc_round]
    simp only [local_iter_count_send_loss]
    rw [sum_range_ite 1 li 0 hli]
    simp [countOcc]
  · rw [countOcc_round]
    simp only [local_iter_count_recv_loss]
    rw [sum_range_ite 1 li 0 hli]
    simp [countOcc]
  · intro i h1 h2
    rw [local_iter_count_send_loss, local_iter_count_recv_loss]
    simp [h2]
  · unfold guest_round_loss
    cases li with
    | zero => exact absurd hli (lt_irrefl 0)
    | succ m =>
      rw [List.range_succ_eq_map, List.foldl_cons]
      simp only [if_pos rfl]
      have hrest : ∀ (l : List Nat), (∀ j ∈ l, j ≠ 0) →
          ∀ (a : Option L), l.foldl (fun loss i =>
            if i = 0 then some (remove_random_mask (masked_dec_loss r i) (loss_mask r i))
            else loss) a = a := by
        intro l
        induction l with
        | nil => intro _ a; rfl
        | cons b l ih =>
          intro hb a
          rw [List.foldl_cons]
          have hbne : b ≠ 0 := hb b (List.mem_cons_self b l)
          rw [if_neg hbne]
          exact ih (fun j hj => hb j (List.mem_cons_of_mem b hj)) a
      apply hrest
      intro j hj
      rcases List.mem_map.mp hj with ⟨x, _, hx⟩
      omega

/-- Witness for C8 at `local_iterations = 2`, round 0, with concrete loss values:
the loss is sent and received once, iteration 1 neither sends nor receives it, and
the convergence input is the unmasking `7 - 3 = 4` from iteration 0. -/
theorem C8_loss_only_first_local_iter_witness :
    countOcc (FtlEv.sendHost "masked_enc_loss" 0) (guest_round_events 2 0) = 1 ∧
    countOcc (FtlEv.recvHost "masked_dec_loss" 0) (guest_round_events 2 0) = 1 ∧
    countOcc (FtlEv.sendHost "masked_enc_loss" 0) (guest_local_iter_events 0 1) = 0 ∧
    countOcc (FtlEv.recvHost "masked_dec_loss" 0) (guest_local_iter_events 0 1) = 0 ∧
    guest_round_loss (fun _ _ => (7 : Nat)) (fun _ _ => 3) (fun a b => a - b) 2 0 =
      some 4 :=
  have h := C8_loss_only_first_local_iter Nat (fun _ _ => 7) (fun _ _ => 3)
    (fun a b => a - b) 2 0 (by decide)
  ⟨h.1, h.2.1, (h.2.2.1 1 (by decide) (by decide)).1,
   (h.2.2.1 1 (by decide) (by decide)).2, h.2.2.2⟩

end FATE
